import Mathlib

/-!
Verification development for the freeconf/manage repository: a RESTCONF
protocol driver (client), its wire-call helpers, and a path-scoped
access-control engine.  Go functions are shallowly embedded as Lean
definitions; stateful driver code becomes explicit state passing.
-/

set_option maxRecDepth 4096

/-- JSON-like values, the payloads moved by the driver. -/
inductive JVal where
  | null : JVal
  | bool : Bool → JVal
  | num : Int → JVal
  | str : String → JVal
  | arr : List JVal → JVal
  | obj : List (String × JVal) → JVal

/-- Lookup of a key in a decoded JSON object (Go map indexing). -/
def jlookup : List (String × JVal) → String → Option JVal
  | [], _ => none
  | (k, v) :: rest, name => if k = name then some v else jlookup rest name

/-- Go type assertion `.(map[string]interface{})`: key present and an object. -/
def jlookupObj (vals : List (String × JVal)) (name : String) :
    Option (List (String × JVal)) :=
  match jlookup vals name with
  | some (JVal.obj fields) => some fields
  | _ => none

/-- Go type assertion `.(string)`: key present and a string. -/
def jlookupStr (vals : List (String × JVal)) (name : String) : Option String :=
  match jlookup vals name with
  | some (JVal.str s) => some s
  | _ => none

/-- Whether a decoded JSON object carries a key. -/
def jhasKey (fields : List (String × JVal)) (name : String) : Bool :=
  (jlookup fields name).isSome

/-! ## Access Control Engine (package secure)

The secure package implementation is absent from the sources (only its
test is present), so the engine is modelled from the specification. -/

/-- Modelled from the spec: the totally ordered permission levels
\x7bNone, Read, Write (implies Read), Full\x7d of the secure package. -/
inductive Permission where
  | none : Permission
  | read : Permission
  | write : Permission
  | full : Permission
deriving DecidableEq, Repr

/-- Numeric rank realizing the total order None < Read < Write < Full. -/
def Permission.level : Permission → Nat
  | Permission.none => 0
  | Permission.read => 1
  | Permission.write => 2
  | Permission.full => 3

/-- Modelled from the spec: one AccessControl entry — a path pattern
(as segments) and a permission level. -/
structure AccessControl where
  path : List String
  permissions : Permission
deriving DecidableEq, Repr

/-- Modelled from the spec: a Role is the keyed set of AccessControl
entries for one identity; keyed by path, so paths are distinct. -/
abbrev Role := List AccessControl

/-- Fold of the missing secure resolver: scan the entries keeping the
match whose path is the longest prefix of the queried path seen so far. -/
def resolveBest (p : List String) : List AccessControl → Option AccessControl →
    Option AccessControl
  | [], best => best
  | e :: rest, best =>
    if e.path.isPrefixOf p then
      match best with
      | Option.none => resolveBest p rest (some e)
      | some b =>
        if b.path.length < e.path.length then resolveBest p rest (some e)
        else resolveBest p rest (some b)
    else resolveBest p rest best

/-- Modelled from the spec: `Resolve(path)` = permission of the Role entry
whose path is the longest prefix match of `path`; default None. -/
def resolve (role : Role) (p : List String) : Permission :=
  match resolveBest p role Option.none with
  | Option.none => Permission.none
  | some e => e.permissions

theorem resolveBest_spec (p : List String) :
    ∀ (l : List AccessControl) (best : Option AccessControl),
      (∀ b, best = some b → b.path.isPrefixOf p = true) →
      ((resolveBest p l best = Option.none →
          best = Option.none ∧ ∀ e ∈ l, e.path.isPrefixOf p = false)
       ∧ (∀ r, resolveBest p l best = some r →
            r.path.isPrefixOf p = true
            ∧ (r ∈ l ∨ best = some r)
            ∧ (∀ e ∈ l, e.path.isPrefixOf p = true →
                e.path.length ≤ r.path.length)
            ∧ (∀ b, best = some b → b.path.length ≤ r.path.length))) := by
  intro l
  induction l with
  | nil =>
    intro best hbest
    constructor
    · intro h
      exact ⟨h, by intro e he; cases he⟩
    · intro r hr
      simp only [resolveBest] at hr
      subst hr
      refine ⟨hbest r rfl, Or.inr rfl, ?_, ?_⟩
      · intro e he; cases he
      · intro b hb; cases hb; exact le_refl _
  | cons e rest ih =>
    intro best hbest
    by_cases hpre : e.path.isPrefixOf p = true
    · -- the head entry matches the path
      cases best with
      | none =>
        have step : resolveBest p (e :: rest) Option.none =
            resolveBest p rest (some e) := by
          simp [resolveBest, hpre]
        have hinv : ∀ b, (some e : Option AccessControl) = some b →
            b.path.isPrefixOf p = true := by
          intro b hb; cases hb; exact hpre
        have ihspec := ih (some e) hinv
        constructor
        · intro h
          rw [step] at h
          exact Option.noConfusion (ihspec.1 h).1
        · intro r hr
          rw [step] at hr
          obtain ⟨h1, h2, h3, h4⟩ := ihspec.2 r hr
          refine ⟨h1, ?_, ?_, ?_⟩
          · cases h2 with
            | inl hmem => exact Or.inl (List.mem_cons_of_mem _ hmem)
            | inr hbe => cases hbe; exact Or.inl (List.mem_cons_self _ _)
          · intro x hx hxpre
            cases hx with
            | head => exact h4 e rfl
            | tail _ hmem => exact h3 x hmem hxpre
          · intro b hb; cases hb
      | some b =>
        have hbpre : b.path.isPrefixOf p = true := hbest b rfl
        by_cases hlen : b.path.length < e.path.length
        · have step : resolveBest p (e :: rest) (some b) =
              resolveBest p rest (some e) := by
            simp [resolveBest, hpre, hlen]
          have hinv : ∀ x, (some e : Option AccessControl) = some x →
              x.path.isPrefixOf p = true := by
            intro x hx; cases hx; exact hpre
          have ihspec := ih (some e) hinv
          constructor
          · intro h
            rw [step] at h
            exact Option.noConfusion (ihspec.1 h).1
          · intro r hr
            rw [step] at hr
            obtain ⟨h1, h2, h3, h4⟩ := ihspec.2 r hr
            refine ⟨h1, ?_, ?_, ?_⟩
            · cases h2 with
              | inl hmem => exact Or.inl (List.mem_cons_of_mem _ hmem)
              | inr hbe => cases hbe; exact Or.inl (List.mem_cons_self _ _)
            · intro x hx hxpre
              cases hx with
              | head => exact h4 e rfl
              | tail _ hmem => exact h3 x hmem hxpre
            · intro x hx
              have hxb : b = x := by injection hx
              subst hxb
              exact le_trans (le_of_lt hlen) (h4 e rfl)
        · have step : resolveBest p (e :: rest) (some b) =
              resolveBest p rest (some b) := by
            simp [resolveBest, hpre, hlen]
          have ihspec := ih (some b) hbest
          constructor
          · intro h
            rw [step] at h
            exact Option.noConfusion (ihspec.1 h).1
          · intro r hr
            rw [step] at hr
            obtain ⟨h1, h2, h3, h4⟩ := ihspec.2 r hr
            refine ⟨h1, ?_, ?_, ?_⟩
            · cases h2 with
              | inl hmem => exact Or.inl (List.mem_cons_of_mem _ hmem)
              | inr hbe => cases hbe; exact Or.inr rfl
            · intro x hx hxpre
              cases hx with
              | head =>
                have hble : e.path.length ≤ b.path.length :=
                  Nat.le_of_not_lt hlen
                exact le_trans hble (h4 b rfl)
              | tail _ hmem => exact h3 x hmem hxpre
            · exact h4
    · -- the head entry does not match: skipped by the fold
      have step : resolveBest p (e :: rest) best = resolveBest p rest best := by
        cases best <;> simp [resolveBest, hpre]
      have ihspec := ih best hbest
      constructor
      · intro h
        rw [step] at h
        obtain ⟨hb, hall⟩ := ihspec.1 h
        refine ⟨hb, ?_⟩
        intro x hx
        cases hx with
        | head => exact eq_false_of_ne_true hpre
        | tail _ hmem => exact hall x hmem
      · intro r hr
        rw [step] at hr
        obtain ⟨h1, h2, h3, h4⟩ := ihspec.2 r hr
        refine ⟨h1, ?_, ?_, h4⟩
        · cases h2 with
          | inl hmem => exact Or.inl (List.mem_cons_of_mem _ hmem)
          | inr hbe => exact Or.inr hbe
        · intro x hx hxpre
          cases hx with
          | head => exact absurd hxpre hpre
          | tail _ hmem => exact h3 x hmem hxpre

/-- C1: For every path p and every Role, Resolve(p) returns the permission of
the Role entry whose path is the longest prefix match of p; if no entry's
path prefixes p, the result is None. -/
theorem resolve_longest_match (role : Role) (p : List String) :
    ((∃ e ∈ role, e.path.isPrefixOf p = true) →
      ∃ e ∈ role, e.path.isPrefixOf p = true ∧
        resolve role p = e.permissions ∧
        ∀ x ∈ role, x.path.isPrefixOf p = true → x.path.length ≤ e.path.length)
    ∧ ((∀ e ∈ role, e.path.isPrefixOf p = false) →
      resolve role p = Permission.none) := by
  have spec := resolveBest_spec p role Option.none (by intro b hb; cases hb)
  constructor
  · rintro ⟨e, he, hpre⟩
    cases hbest : resolveBest p role Option.none with
    | none =>
      have hfalse := (spec.1 hbest).2 e he
      rw [hfalse] at hpre
      exact Bool.noConfusion hpre
    | some r =>
      obtain ⟨h1, h2, h3, _⟩ := spec.2 r hbest
      have hmem : r ∈ role := by
        cases h2 with
        | inl hm => exact hm
        | inr hb => exact Option.noConfusion hb
      refine ⟨r, hmem, h1, ?_, h3⟩
      unfold resolve
      rw [hbest]
  · intro hnone
    cases hbest : resolveBest p role Option.none with
    | none =>
      unfold resolve
      rw [hbest]
    | some r =>
      obtain ⟨h1, h2, _, _⟩ := spec.2 r hbest
      cases h2 with
      | inl hm =>
        rw [hnone r hm] at h1
        exact Bool.noConfusion h1
      | inr hb => exact Option.noConfusion hb

/-- The mixed role of the secure test: Full at a, None at the deeper a/b. -/
def roleAB : Role :=
  [⟨["a"], Permission.full⟩, ⟨["a", "b"], Permission.none⟩]

theorem resolve_longest_match_witness :
    ∃ e ∈ roleAB, e.path.isPrefixOf ["a", "b", "c"] = true ∧
      resolve roleAB ["a", "b", "c"] = e.permissions ∧
      ∀ x ∈ roleAB, x.path.isPrefixOf ["a", "b", "c"] = true →
        x.path.length ≤ e.path.length :=
  (resolve_longest_match roleAB ["a", "b", "c"]).1 (by decide)

/-! ### Enforcement outcomes, modelled from the spec -/

/-- Data behind the tree: leaf/child values addressed by full path. -/
abbrev Store := List (List String × JVal)

/-- Lookup of a path in the store. -/
def storeLookup : Store → List String → Option JVal
  | [], _ => Option.none
  | (k, v) :: rest, p => if k = p then some v else storeLookup rest p

/-- Replace-or-insert of a path binding in the store. -/
def storePut : Store → List String → JVal → Store
  | [], p, v => [(p, v)]
  | (k, w) :: rest, p, v =>
    if k = p then (k, v) :: rest else (k, w) :: storePut rest p v

/-- Modelled from the spec: the secure read check — permission below Read
means the field or child is treated as absent (no value, no error). -/
def readField (role : Role) (store : Store) (p : List String) :
    Except String (Option JVal) :=
  if 1 ≤ (resolve role p).level then Except.ok (storeLookup store p)
  else Except.ok Option.none

/-- Modelled from the spec: the secure navigation check — a hidden
navigation target reads as not found, never as an error. -/
def navChild (role : Role) (store : Store) (p : List String) :
    Except String (Option Unit) :=
  if 1 ≤ (resolve role p).level then
    Except.ok (if (storeLookup store p).isSome then some () else Option.none)
  else Except.ok Option.none

/-- Modelled from the spec: the secure write check — permission below Write
fails Unauthorized and no mutation is attempted. -/
def writeField (role : Role) (store : Store) (p : List String) (v : JVal) :
    Store × Option String :=
  if 2 ≤ (resolve role p).level then (storePut store p v, Option.none)
  else (store, some "unauthorized")

/-- Modelled from the spec: action invoke requires Write-or-above at the
action path, else Unauthorized. -/
def invokeAction (role : Role) (p : List String) : Option String :=
  if 2 ≤ (resolve role p).level then Option.none else some "unauthorized"

/-- One delivered subscription event: payload or error-classified. -/
inductive SubEvent where
  | payload : JVal → SubEvent
  | errorEvent : String → SubEvent

/-- Modelled from the spec: subscribe requires Read-or-above; otherwise the
sole delivered event is an error-classified Unauthorized event and the
subscription closes (second component: closed). -/
def subscribeEvents (role : Role) (p : List String) (events : List JVal) :
    List SubEvent × Bool :=
  if 1 ≤ (resolve role p).level then (events.map SubEvent.payload, false)
  else ([SubEvent.errorEvent "unauthorized"], true)

/-- C3: under a Role whose resolved permission is below the required level,
a field or child read is absent without error, a write fails Unauthorized
with the store unchanged, an action invoke fails Unauthorized, and a
subscription delivers exactly one error-classified Unauthorized event and
closes — never a silently empty stream. -/
theorem accessControl_denials (role : Role) (p : List String) (store : Store)
    (v : JVal) (events : List JVal) :
    ((resolve role p).level < 1 →
      readField role store p = Except.ok Option.none
      ∧ navChild role store p = Except.ok Option.none)
    ∧ ((resolve role p).level < 2 →
      writeField role store p v = (store, some "unauthorized"))
    ∧ ((resolve role p).level < 2 →
      invokeAction role p = some "unauthorized")
    ∧ ((resolve role p).level < 1 →
      subscribeEvents role p events = ([SubEvent.errorEvent "unauthorized"], true)
      ∧ (subscribeEvents role p events).1.length = 1) := by
  refine ⟨?_, ?_, ?_, ?_⟩
  · intro h
    have hn := Nat.not_le_of_lt h
    constructor
    · simp [readField, hn]
    · simp [navChild, hn]
  · intro h
    have hn := Nat.not_le_of_lt h
    simp [writeField, hn]
  · intro h
    have hn := Nat.not_le_of_lt h
    simp [invokeAction, hn]
  · intro h
    have hn := Nat.not_le_of_lt h
    constructor
    · simp [subscribeEvents, hn]
    · simp [subscribeEvents, hn]

theorem accessControl_denials_witness :
    readField [] [] ["birding", "count"] = Except.ok Option.none
    ∧ navChild [] [] ["birding", "count"] = Except.ok Option.none
    ∧ writeField [] [] ["birding", "count"] (JVal.num 100)
        = ([], some "unauthorized")
    ∧ invokeAction [] ["birding", "count"] = some "unauthorized"
    ∧ subscribeEvents [] ["birding", "count"] []
        = ([SubEvent.errorEvent "unauthorized"], true) := by
  have h := accessControl_denials [] ["birding", "count"] [] (JVal.num 100) []
  exact ⟨(h.1 (by decide)).1, (h.1 (by decide)).2, h.2.1 (by decide),
    h.2.2.1 (by decide), (h.2.2.2 (by decide)).1⟩

/-- C2: with the Role holding exactly Full at a and None at a/b, the deeper
entry overrides the shallower one regardless of grant level: a read at a
succeeds, navigation to a/b is hidden as absent without error, and a write
under a/b fails Unauthorized with no mutation. -/
theorem roleAB_override :
    resolve roleAB ["a"] = Permission.full
    ∧ resolve roleAB ["a", "b"] = Permission.none
    ∧ readField roleAB [(["a"], JVal.str "v")] ["a"]
        = Except.ok (some (JVal.str "v"))
    ∧ navChild roleAB [(["a"], JVal.str "v"), (["a", "b"], JVal.obj [])]
        ["a", "b"] = Except.ok Option.none
    ∧ writeField roleAB [(["a"], JVal.str "v")] ["a", "b"] (JVal.str "w")
        = ([(["a"], JVal.str "v")], some "unauthorized") := by
  refine ⟨by decide, by decide, ?_, ?_, ?_⟩
  · rfl
  · rfl
  · rfl

/-! ## Wire transport (package client, clientDo) -/

/-- An HTTP response as seen by clientDo: status code and body text
(`Option.none` models a nil body; an empty string models ContentLength 0). -/
structure HttpResponse where
  statusCode : Nat
  body : Option String
deriving DecidableEq, Repr

/-- The text `ioutil.ReadAll` recovers from the response body. -/
def bodyText (r : HttpResponse) : String := r.body.getD ""

/-- Response handling tail of `client.clientDo`: non-200 becomes an error
carrying status code and body text; a nil or length-zero body becomes
`ok none` (no content); otherwise the body is handed back. -/
def clientDoResult (r : HttpResponse) : Except String (Option String) :=
  if r.statusCode ≠ 200 then
    Except.error ("(" ++ toString r.statusCode ++ ") " ++ bodyText r)
  else
    match r.body with
    | Option.none => Except.ok Option.none
    | some s => if s = "" then Except.ok Option.none else Except.ok (some s)

/-- Whether a status code lies in the 2xx success class. -/
def is2xx (n : Nat) : Bool := decide (200 ≤ n) && decide (n ≤ 299)

/-- C8 counterexample: 204 is a 2xx status with an absent body, which the
claim says is a "no content" success, but clientDo only accepts exactly
200 and turns 204 into an error. -/
theorem clientDo_status204_is_error :
    is2xx 204 = true
    ∧ clientDoResult ⟨204, Option.none⟩ = Except.error "(204) " := by
  constructor
  · decide
  · rfl

/-- C8 amended: any non-200 response yields an error carrying the status
code and the body text; a 200 response with a nil or empty body yields a
nil "no content" result, not an error; a 200 response with a non-empty
body yields the body. -/
theorem clientDo_response_handling (r : HttpResponse) :
    (r.statusCode ≠ 200 →
      clientDoResult r
        = Except.error ("(" ++ toString r.statusCode ++ ") " ++ bodyText r))
    ∧ (r.statusCode = 200 → (r.body = Option.none ∨ r.body = some "") →
      clientDoResult r = Except.ok Option.none)
    ∧ (r.statusCode = 200 → ∀ s, r.body = some s → s ≠ "" →
      clientDoResult r = Except.ok (some s)) := by
  refine ⟨?_, ?_, ?_⟩
  · intro h
    simp [clientDoResult, h]
  · intro h hbody
    cases hbody with
    | inl hb => simp [clientDoResult, h, hb]
    | inr hb => simp [clientDoResult, h, hb]
  · intro h s hb hs
    simp [clientDoResult, h, hb, hs]

theorem clientDo_response_handling_witness :
    clientDoResult ⟨500, some "oops"⟩ = Except.error "(500) oops"
    ∧ clientDoResult ⟨200, Option.none⟩ = Except.ok Option.none
    ∧ clientDoResult ⟨200, some "x"⟩ = Except.ok (some "x") :=
  ⟨(clientDo_response_handling ⟨500, some "oops"⟩).1 (by decide),
   (clientDo_response_handling ⟨200, Option.none⟩).2.1 rfl (Or.inl rfl),
   (clientDo_response_handling ⟨200, some "x"⟩).2.2 rfl "x" rfl (by decide)⟩

/-! ## Read-mode materialization (clientNode.get) -/

/-- Outcome of `clientNode.get`: a propagated error, a nil-dereference
panic (clientDo answered `(nil, nil)` and get closes the nil reader), or
the node decoded from the body. -/
inductive GetOutcome where
  | fail : String → GetOutcome
  | nilDerefPanic : GetOutcome
  | node : String → GetOutcome
deriving DecidableEq, Repr

/-- `clientNode.get`: call clientDo, propagate an error, otherwise defer
`resp.Close()` — a nil deref when the no-content path returned a nil
reader — and decode the body. -/
def clientNodeGet (r : HttpResponse) : GetOutcome :=
  match clientDoResult r with
  | Except.error e => GetOutcome.fail e
  | Except.ok Option.none => GetOutcome.nilDerefPanic
  | Except.ok (some body) => GetOutcome.node body

/-- C10: on a 200 response, clientDo hands get a nil reader with nil error
exactly when the body is absent or empty, and get then nil-derefs; read
mode materializes without panic precisely when the body is non-empty. -/
theorem get_nil_deref_on_empty_body (b : Option String) :
    (clientDoResult ⟨200, b⟩ = Except.ok Option.none
      ↔ (b = Option.none ∨ b = some ""))
    ∧ (clientNodeGet ⟨200, b⟩ = GetOutcome.nilDerefPanic
      ↔ (b = Option.none ∨ b = some "")) := by
  cases b with
  | none =>
    constructor
    · constructor
      · intro _; exact Or.inl rfl
      · intro _; rfl
    · constructor
      · intro _; exact Or.inl rfl
      · intro _; rfl
  | some s =>
    by_cases hs : s = ""
    · subst hs
      constructor
      · constructor
        · intro _; exact Or.inr rfl
        · intro _; rfl
      · constructor
        · intro _; exact Or.inr rfl
        · intro _; rfl
    · constructor
      · constructor
        · intro h
          simp [clientDoResult, hs] at h
        · intro h
          cases h with
          | inl h => exact Option.noConfusion h
          | inr h =>
            rw [Option.some_inj] at h
            exact absurd h hs
      · constructor
        · intro h
          simp [clientNodeGet, clientDoResult, hs] at h
        · intro h
          cases h with
          | inl h => exact Option.noConfusion h
          | inr h =>
            rw [Option.some_inj] at h
            exact absurd h hs

/-! ## Edit mode (clientNode.OnBeginEdit / startEditMode / OnEndEdit) -/

/-- One wire call as logged by the driver tests: HTTP method and query
parameters. -/
structure WireRequest where
  method : String
  params : String
deriving DecidableEq, Repr

/-- Edit-mode state created by a successful startEditMode: the decoded
pre-fetch snapshot and the fresh (empty) change buffer. -/
structure EditState where
  snapshot : JVal
  changes : List (String × JVal)

/-- The fixed pre-fetch query of startEditMode. -/
def editParams : String := "depth=1&content=config&with-defaults=trim"

/-- `OnBeginEdit`: outside the edit root nothing happens; at the root the
verb is POST for a "new" request else PUT, then startEditMode issues one
GET pre-fetch; a pre-fetch error aborts the edit with no state created.
Returns (requests issued, chosen verb, outcome). -/
def onBeginEdit (editRoot isNew : Bool) (fetch : Except String JVal) :
    List WireRequest × String × Except String (Option EditState) :=
  if editRoot then
    let m := if isNew then "POST" else "PUT"
    match fetch with
    | Except.error e => ([⟨"GET", editParams⟩], m, Except.error e)
    | Except.ok v => ([⟨"GET", editParams⟩], m, Except.ok (some ⟨v, []⟩))
  else ([], "", Except.ok Option.none)

/-- C5: begin-edit at the edit root chooses POST when "new" and PUT
otherwise, issues exactly one pre-fetch GET with
depth=1&content=config&with-defaults=trim, and a failed pre-fetch returns
the error with no edit state created. -/
theorem beginEdit_prefetch (isNew : Bool) (fetch : Except String JVal) :
    (onBeginEdit true isNew fetch).1 = [⟨"GET", editParams⟩]
    ∧ (onBeginEdit true isNew fetch).2.1 = (if isNew then "POST" else "PUT")
    ∧ (∀ e, fetch = Except.error e →
        (onBeginEdit true isNew fetch).2.2 = Except.error e)
    ∧ (∀ v, fetch = Except.ok v →
        (onBeginEdit true isNew fetch).2.2 = Except.ok (some ⟨v, []⟩)) := by
  refine ⟨?_, ?_, ?_, ?_⟩
  · cases fetch <;> rfl
  · cases fetch <;> rfl
  · intro e he
    subst he
    rfl
  · intro v hv
    subst hv
    rfl

theorem beginEdit_prefetch_witness :
    (onBeginEdit true false (Except.error "boom")).1 = [⟨"GET", editParams⟩]
    ∧ (onBeginEdit true false (Except.error "boom")).2.1 = "PUT"
    ∧ (onBeginEdit true false (Except.error "boom")).2.2
        = Except.error "boom" :=
  ⟨(beginEdit_prefetch false (Except.error "boom")).1,
   (beginEdit_prefetch false (Except.error "boom")).2.1,
   (beginEdit_prefetch false (Except.error "boom")).2.2.1 "boom" rfl⟩

/-- Child of a decoded JSON node (`existing.Child(r)` on the snapshot). -/
def jChildOf (v : JVal) (name : String) : Option JVal :=
  match v with
  | JVal.obj fields => jlookup fields name
  | _ => Option.none

/-- Replace-or-append of a key in the change buffer map. -/
def jput : List (String × JVal) → String → JVal → List (String × JVal)
  | [], name, v => [(name, v)]
  | (k, w) :: rest, name, v =>
    if k = name then (k, v) :: rest else (k, w) :: jput rest name v

/-- The edit handle's child lookup (nodeutil.Extend OnChild around the
change buffer): a non-New request with a snapshot present goes to the
snapshot; every other request goes to the change buffer. -/
def editChild (existing : Option JVal) (changes : List (String × JVal))
    (isNew : Bool) (name : String) : Option JVal :=
  match existing, isNew with
  | some snapshot, false => jChildOf snapshot name
  | _, _ => jlookup changes name

/-- A field write during the edit lands in the change buffer (Extend has
no OnField, so fields delegate to the Base change buffer). -/
def editSetField (changes : List (String × JVal)) (name : String) (v : JVal) :
    List (String × JVal) :=
  jput changes name v

/-- A New child request during the edit creates the container in the
change buffer (ReflectChild allocates a fresh map). -/
def editNewChild (changes : List (String × JVal)) (name : String) :
    List (String × JVal) :=
  jput changes name (JVal.obj [])

/-- `OnEndEdit`: outside the edit root or for a delete, no wire call;
otherwise the stored verb is issued with the serialized change buffer —
and only the change buffer — as the request body. -/
def onEndEdit (editRoot isDelete : Bool) (method : String)
    (changes : List (String × JVal)) : Option (String × JVal) :=
  if editRoot then
    if isDelete then Option.none else some (method, JVal.obj changes)
  else Option.none

/-- The snapshot of the driver test: \x7by:\x7b\x7d, z:"hi"\x7d. -/
def snapshotYZ : JVal :=
  JVal.obj [("y", JVal.obj []), ("z", JVal.str "hi")]

/-- C4 counterexample: with snapshot \x7by:\x7b\x7d, z:"hi"\x7d and an edit
whose only operation sets z in the change buffer, ending the edit emits a
body holding z alone — the untouched sibling y of the snapshot is absent,
because OnEndEdit serializes only the change buffer. -/
theorem endEdit_drops_untouched_sibling :
    (onBeginEdit true false (Except.ok snapshotYZ)).2.2
      = Except.ok (some ⟨snapshotYZ, []⟩)
    ∧ jChildOf snapshotYZ "y" = some (JVal.obj [])
    ∧ editSetField [] "z" (JVal.str "hi") = [("z", JVal.str "hi")]
    ∧ onEndEdit true false "PUT" (editSetField [] "z" (JVal.str "hi"))
      = some ("PUT", JVal.obj [("z", JVal.str "hi")])
    ∧ jhasKey [("z", JVal.str "hi")] "y" = false := by
  refine ⟨rfl, rfl, rfl, rfl, rfl⟩

/-- C4 amended: the edit handle routes New child requests to the change
buffer and non-New child requests to the snapshot when one exists (fields
always to the change buffer); end-edit serializes only the change buffer,
so a sibling reaches the body exactly when it was written during the edit,
as in the driver test where a New child request for y and a field write of
z yield the body \x7by:\x7b\x7d, z:"hi"\x7d. -/
theorem editHandle_dispatch :
    (∀ snapshot changes name,
      editChild (some snapshot) changes false name = jChildOf snapshot name)
    ∧ (∀ existing changes name,
      editChild existing changes true name = jlookup changes name)
    ∧ (∀ changes name,
      editChild Option.none changes false name = jlookup changes name)
    ∧ (onEndEdit true false "PUT"
        (editSetField (editNewChild [] "y") "z" (JVal.str "hi"))
      = some ("PUT", JVal.obj [("y", JVal.obj []), ("z", JVal.str "hi")]))
    ∧ (onEndEdit true true "PUT" [("y", JVal.obj [])] = Option.none) := by
  refine ⟨?_, ?_, ?_, rfl, rfl⟩
  · intro snapshot changes name
    rfl
  · intro existing changes name
    cases existing <;> rfl
  · intro changes name
    rfl

/-! ## Navigation probe (clientNode.validNavigation) -/

/-- What the server answers to one OPTIONS probe. -/
inductive ProbeResponse where
  | success : ProbeResponse
  | notFound : ProbeResponse
  | failure : String → ProbeResponse
deriving DecidableEq, Repr

/-- Outcome of one navigational operation: target valid, target invalid
(path does not resolve, not an error), or a propagated error. -/
inductive NavResult where
  | valid : NavResult
  | invalid : NavResult
  | fail : String → NavResult
deriving DecidableEq, Repr

/-- A navigational tree operation reaching the driver. -/
inductive NavOp where
  | child : NavOp
  | next : NavOp
  | field : NavOp
deriving DecidableEq, Repr

/-- `clientNode.validNavigation`: when the found flag is unset, issue one
OPTIONS request; NotFound means invalid-without-error, any other failure
propagates, success sets the flag. Returns (result, new flag, requests
issued). -/
def validNavigation (found : Bool) (resp : ProbeResponse) :
    NavResult × Bool × Nat :=
  if found then (NavResult.valid, true, 0)
  else
    match resp with
    | ProbeResponse.success => (NavResult.valid, true, 1)
    | ProbeResponse.notFound => (NavResult.invalid, false, 1)
    | ProbeResponse.failure e => (NavResult.fail e, false, 1)

/-- A sequence of navigational operations on one driver instance, each
paired with the response the server would give to a probe; OnField answers
navigation directly without probing. Returns (results, final flag, total
OPTIONS requests issued). -/
def runNav (found : Bool) :
    List (NavOp × ProbeResponse) → List NavResult × Bool × Nat
  | [] => ([], found, 0)
  | (op, resp) :: rest =>
    match op with
    | NavOp.field =>
      let r := runNav found rest
      (NavResult.valid :: r.1, r.2.1, r.2.2)
    | _ =>
      let s := validNavigation found resp
      let r := runNav s.2.1 rest
      (s.1 :: r.1, r.2.1, s.2.2 + r.2.2)

/-- C6 counterexample: two navigational Child operations whose probes both
answer NotFound issue two OPTIONS requests on one driver instance — the
probe is memoized only on success, so "at most one OPTIONS request in
total" fails. -/
theorem nav_two_probes_on_notFound :
    (runNav false [(NavOp.child, ProbeResponse.notFound),
        (NavOp.child, ProbeResponse.notFound)]).2.2 = 2
    ∧ ¬ (runNav false [(NavOp.child, ProbeResponse.notFound),
        (NavOp.child, ProbeResponse.notFound)]).2.2 ≤ 1 := by
  constructor
  · rfl
  · decide

/-- Once the found flag is set, every navigational operation succeeds and
no request is issued. -/
theorem runNav_found (ops : List (NavOp × ProbeResponse)) :
    runNav true ops = (List.replicate ops.length NavResult.valid, true, 0) := by
  induction ops with
  | nil => rfl
  | cons hd tl ih =>
    obtain ⟨op, resp⟩ := hd
    cases op <;> simp [runNav, validNavigation, ih, List.replicate]

/-- C6 amended: a NotFound probe yields path-invalid without error and a
failing probe propagates its error, each leaving the flag unset so a later
navigation probes again; a successful probe permanently sets the flag, so
when every probe succeeds at most one OPTIONS request is issued in total
and all later navigational operations succeed without another request. -/
theorem nav_probe_memoized_on_success (ops : List (NavOp × ProbeResponse)) :
    ((∀ pr ∈ ops, pr.1 = NavOp.field ∨ pr.2 = ProbeResponse.success) →
      (runNav false ops).2.2 ≤ 1)
    ∧ (∀ rest, runNav false ((NavOp.child, ProbeResponse.success) :: rest)
        = (NavResult.valid :: List.replicate rest.length NavResult.valid,
           true, 1))
    ∧ (∀ rest resp, runNav false ((NavOp.child, resp) :: rest)
        = ((validNavigation false resp).1 ::
            (runNav (validNavigation false resp).2.1 rest).1,
           (runNav (validNavigation false resp).2.1 rest).2.1,
           (validNavigation false resp).2.2 +
            (runNav (validNavigation false resp).2.1 rest).2.2))
    ∧ (validNavigation false ProbeResponse.notFound
        = (NavResult.invalid, false, 1))
    ∧ (∀ e, validNavigation false (ProbeResponse.failure e)
        = (NavResult.fail e, false, 1)) := by
  refine ⟨?_, ?_, ?_, rfl, fun e => rfl⟩
  · induction ops with
    | nil => intro _; decide
    | cons hd tl ih =>
      intro hall
      obtain ⟨op, resp⟩ := hd
      have hhd := hall (op, resp) (List.mem_cons_self _ _)
      have htl : ∀ pr ∈ tl, pr.1 = NavOp.field ∨ pr.2 = ProbeResponse.success :=
        fun pr hm => hall pr (List.mem_cons_of_mem _ hm)
      cases op with
      | field =>
        simpa [runNav] using ih htl
      | child =>
        cases hhd with
        | inl h => exact NavOp.noConfusion h
        | inr h =>
          subst h
          simp [runNav, validNavigation, runNav_found]
      | next =>
        cases hhd with
        | inl h => exact NavOp.noConfusion h
        | inr h =>
          subst h
          simp [runNav, validNavigation, runNav_found]
  · intro rest
    simp [runNav, validNavigation, runNav_found]
  · intro rest resp
    rfl

theorem nav_probe_memoized_on_success_witness :
    (runNav false [(NavOp.child, ProbeResponse.success),
        (NavOp.next, ProbeResponse.success)]).2.2 ≤ 1 :=
  (nav_probe_memoized_on_success
    [(NavOp.child, ProbeResponse.success),
     (NavOp.next, ProbeResponse.success)]).1 (by decide)

/-! ## Action envelope (clientNode.requestAction) -/

/-- Body framing of requestAction: a nil input writes nothing; otherwise
the serialized input, wrapped as \x7b"<module>:input": ...\x7d unless the
action wrapper is disabled. -/
def actionPayload (disableWrapper : Bool) (m : String)
    (input : Option String) : String :=
  match input with
  | Option.none => ""
  | some body =>
    if disableWrapper then body
    else "\x7b\"" ++ m ++ ":input\":" ++ body ++ "\x7d"

/-- The wire call requestAction issues: always a POST, carrying the framed
payload. -/
def actionWireCall (disableWrapper : Bool) (m : String)
    (input : Option String) : String × String :=
  ("POST", actionPayload disableWrapper m input)

/-- Result of decoding an action response. -/
inductive ActionResult where
  | noContent : ActionResult
  | node : JVal → ActionResult
  | decodeFailed : ActionResult
  | contractErr : String → ActionResult

/-- Response handling of requestAction: an absent response is no-content;
with the wrapper enabled the decoded object must carry the module-qualified
"<module>:output" object key, which is unwrapped, else a contract error;
with the wrapper disabled the whole response is the result. -/
def actionDecode (disableWrapper : Bool) (m : String) (resp : Option JVal) :
    ActionResult :=
  match resp with
  | Option.none => ActionResult.noContent
  | some v =>
    if disableWrapper then ActionResult.node v
    else
      match v with
      | JVal.obj vals =>
        match jlookupObj vals (m ++ ":output") with
        | some out => ActionResult.node (JVal.obj out)
        | Option.none => ActionResult.contractErr
            ("\x27" ++ m ++ ":output\x27 missing in output wrapper")
      | _ => ActionResult.decodeFailed

/-- C7: with wrapping enabled, a non-nil input is POSTed inside the
module-qualified \x7b"<module>:input": ...\x7d wrapper; a response
\x7b"m:output":\x7b\x7d\x7d succeeds with an empty result while a response
\x7b\x7d (key absent) is a protocol-contract error. -/
theorem action_envelope (m : String) (body : String) :
    actionWireCall false m (some body)
      = ("POST", "\x7b\"" ++ m ++ ":input\":" ++ body ++ "\x7d")
    ∧ actionDecode false "m" (some (JVal.obj [("m:output", JVal.obj [])]))
      = ActionResult.node (JVal.obj [])
    ∧ actionDecode false "m" (some (JVal.obj []))
      = ActionResult.contractErr "\x27m:output\x27 missing in output wrapper" := by
  refine ⟨rfl, ?_, rfl⟩
  simp [actionDecode, jlookupObj, jlookup]

/-! ## Event stream decoder (client.clientStream) -/

/-- Timestamp of a delivered stream event: the receipt time or the parsed
eventTime of the notification envelope. -/
inductive EventStamp where
  | receipt : EventStamp
  | parsed : Nat → EventStamp

/-- One decoded stream event: timestamp plus payload or error marker. -/
structure StreamEvent where
  stamp : EventStamp
  node : SubEvent

/-- Per-chunk decoding loop body of clientStream, with the eventTime
parser abstracted (`parseTime`); the chunk is the result of unmarshalling
one SSE message into a JSON object, `Option.none` when unmarshalling
failed. Every chunk yields exactly one event. -/
def decodeChunk (disableWrapper : Bool) (parseTime : String → Option Nat)
    (chunk : Option (List (String × JVal))) : StreamEvent :=
  match chunk with
  | Option.none => ⟨EventStamp.receipt, SubEvent.errorEvent "invalid JSON"⟩
  | some vals =>
    if disableWrapper then
      ⟨EventStamp.receipt, SubEvent.payload (JVal.obj vals)⟩
    else
      match jlookupObj vals "ietf-restconf:notification" with
      | Option.none => ⟨EventStamp.receipt, SubEvent.errorEvent
          "SSE message missing ietf-restconf:notification wrapper"⟩
      | some payload =>
        match jlookupObj payload "event" with
        | Option.none => ⟨EventStamp.receipt, SubEvent.errorEvent
            "SSE message missing event payload"⟩
        | some body =>
          match jlookupStr payload "eventTime" with
          | Option.none => ⟨EventStamp.receipt, SubEvent.errorEvent
              "SSE message missing eventTime"⟩
          | some tstr =>
            match parseTime tstr with
            | Option.none => ⟨EventStamp.receipt, SubEvent.errorEvent
                ("eventTime in wrong format \x27" ++ tstr ++ "\x27")⟩
            | some t => ⟨EventStamp.parsed t, SubEvent.payload (JVal.obj body)⟩

/-- C9: with wrapping enabled a missing notification wrapper, missing
event object, missing eventTime string, or unparsable eventTime each turn
the chunk into exactly one error-classified event carrying that specific
reason — in particular \x7b"unexpected":"shape"\x7d reports the missing
wrapper — and with wrapping disabled the whole chunk is the payload
stamped with the receipt time. -/
theorem stream_chunk_decoding (parseTime : String → Option Nat) :
    (∀ vals, jlookupObj vals "ietf-restconf:notification" = Option.none →
      decodeChunk false parseTime (some vals)
        = ⟨EventStamp.receipt, SubEvent.errorEvent
            "SSE message missing ietf-restconf:notification wrapper"⟩)
    ∧ (∀ vals payload,
        jlookupObj vals "ietf-restconf:notification" = some payload →
        jlookupObj payload "event" = Option.none →
        decodeChunk false parseTime (some vals)
          = ⟨EventStamp.receipt, SubEvent.errorEvent
              "SSE message missing event payload"⟩)
    ∧ (∀ vals payload body,
        jlookupObj vals "ietf-restconf:notification" = some payload →
        jlookupObj payload "event" = some body →
        jlookupStr payload "eventTime" = Option.none →
        decodeChunk false parseTime (some vals)
          = ⟨EventStamp.receipt, SubEvent.errorEvent
              "SSE message missing eventTime"⟩)
    ∧ (∀ vals payload body tstr,
        jlookupObj vals "ietf-restconf:notification" = some payload →
        jlookupObj payload "event" = some body →
        jlookupStr payload "eventTime" = some tstr →
        parseTime tstr = Option.none →
        decodeChunk false parseTime (some vals)
          = ⟨EventStamp.receipt, SubEvent.errorEvent
              ("eventTime in wrong format \x27" ++ tstr ++ "\x27")⟩)
    ∧ (decodeChunk false parseTime (some [("unexpected", JVal.str "shape")])
        = ⟨EventStamp.receipt, SubEvent.errorEvent
            "SSE message missing ietf-restconf:notification wrapper"⟩)
    ∧ (∀ vals, decodeChunk true parseTime (some vals)
        = ⟨EventStamp.receipt, SubEvent.payload (JVal.obj vals)⟩) := by
  refine ⟨?_, ?_, ?_, ?_, rfl, fun vals => rfl⟩
  · intro vals h
    simp [decodeChunk, h]
  · intro vals payload h1 h2
    simp [decodeChunk, h1, h2]
  · intro vals payload body h1 h2 h3
    simp [decodeChunk, h1, h2, h3]
  · intro vals payload body tstr h1 h2 h3 h4
    simp [decodeChunk, h1, h2, h3, h4]

theorem stream_chunk_decoding_witness :
    decodeChunk false (fun _ => Option.none)
        (some [("unexpected", JVal.str "shape")])
      = ⟨EventStamp.receipt, SubEvent.errorEvent
          "SSE message missing ietf-restconf:notification wrapper"⟩ :=
  (stream_chunk_decoding (fun _ => Option.none)).1
    [("unexpected", JVal.str "shape")] rfl
